import Mathlib

/-!
Shallow embedding of `nemo/collections/nlp/nm/losses/sgd_loss.py`
(`SGDDialogueStateLossNM`), the loss aggregator for the Schema-Guided
Dialogue state-tracking model.

Tensors are modelled as (nested) lists: a `(B, C)` float tensor is a
`List (List ℝ)`, a `(B, T)` integer label tensor is a `List (List Int)`,
and `view(-1)` / `view(-1, C)` are `List.flatten` on the outer dimensions.
PyTorch's `CrossEntropyLoss` and `BCEWithLogitsLoss` are given their
real-number semantics; the IEEE NaN produced by a mean reduction over an
empty effective population (division 0/0) is modelled as `none : Option ℝ`,
and NaN propagation through `+` and `/` as `Option.bind`.
-/

namespace SGDLoss

/-- The reduction mode the module is constructed with ('mean' or 'sum'). -/
inductive Reduction where
  | mean
  | sum
deriving DecidableEq

/-- Modelled from the spec: `IGNORE_INDEX` is imported from
`nemo.collections.nlp.data.datasets.sgd_dataset.input_example`, which is not
among the excerpted sources.  The spec describes it as "a designated sentinel
integer value" marking label positions excluded from the loss; the repository
uses the PyTorch conventional value -100.  No claim depends on the concrete
value, only on labels being equal or not equal to it. -/
def IGNORE_INDEX : Int := -100

/-- Number of label positions that are not the ignore sentinel
(the Python `sum(labels != IGNORE_INDEX)` on the flattened label tensor). -/
def activeCount (labels : List Int) : Nat :=
  (labels.filter (fun y => y != IGNORE_INDEX)).length

/-- PyTorch boolean-mask indexing `t[mask]`: keeps, in order, the entries of
`xs` at the positions where `m` is `true`. -/
def maskedSelect {α : Type} (xs : List α) (m : List Bool) : List α :=
  ((xs.zip m).filter (fun p => p.2)).map (fun p => p.1)

/-- log-sum-exp of a list of logits. -/
noncomputable def lse (xs : List ℝ) : ℝ :=
  Real.log ((xs.map Real.exp).sum)

/-- Per-example negative log-softmax term of `CrossEntropyLoss`:
`-log softmax(row)[y] = lse row - row[y]`. -/
noncomputable def nllTerm (row : List ℝ) (y : Int) : ℝ :=
  lse row - row.getD y.toNat 0

/-- Pairs (logit row, target) whose target is not the ignore sentinel: the
effective population of a `CrossEntropyLoss` call. -/
def ceActive (logits : List (List ℝ)) (targets : List Int) :
    List (List ℝ × Int) :=
  (logits.zip targets).filter (fun p => p.2 != IGNORE_INDEX)

/-- Sum of the per-example cross-entropy terms over the non-ignored targets. -/
noncomputable def ceTotal (logits : List (List ℝ)) (targets : List Int) : ℝ :=
  ((ceActive logits targets).map (fun p => nllTerm p.1 p.2)).sum

/-- PyTorch `torch.nn.CrossEntropyLoss(reduction, ignore_index=IGNORE_INDEX)` applied
to `(N, C)` logits and `(N,)` integer targets.  Targets equal to the ignore
sentinel contribute neither to the loss sum nor to the mean's denominator.
With `reduction='mean'` and no non-ignored target the result is NaN
(modelled `none`); with `reduction='sum'` it is `0`. -/
noncomputable def CrossEntropyLoss (r : Reduction) (logits : List (List ℝ))
    (targets : List Int) : Option ℝ :=
  match r with
  | Reduction.sum => some (ceTotal logits targets)
  | Reduction.mean =>
      if (ceActive logits targets).length = 0 then none
      else some (ceTotal logits targets / ((ceActive logits targets).length : ℝ))

/-- The logistic sigmoid. -/
noncomputable def sigmoid (x : ℝ) : ℝ :=
  1 / (1 + Real.exp (-x))

/-- Per-element binary-cross-entropy-with-logits term:
`-(y log σ(x) + (1-y) log (1-σ(x)))`. -/
noncomputable def bceTerm (x y : ℝ) : ℝ :=
  -(y * Real.log (sigmoid x) + (1 - y) * Real.log (1 - sigmoid x))

/-- Per-element binary-cross-entropy terms of a `BCEWithLogitsLoss` call. -/
noncomputable def bceTerms (x y : List ℝ) : List ℝ :=
  (x.zip y).map (fun p => bceTerm p.1 p.2)

/-- PyTorch `torch.nn.BCEWithLogitsLoss(reduction)` applied to 1-D logits `x` and
float targets `y`.  With `reduction='mean'` on an empty input the result is
NaN (modelled `none`); with `reduction='sum'` it is `0`. -/
noncomputable def BCEWithLogitsLoss (r : Reduction) (x y : List ℝ) : Option ℝ :=
  match r with
  | Reduction.sum => some (bceTerms x y).sum
  | Reduction.mean =>
      if (bceTerms x y).length = 0 then none
      else some ((bceTerms x y).sum / ((bceTerms x y).length : ℝ))

/-- NaN-propagating addition on loss scalars. -/
noncomputable def oadd (a b : Option ℝ) : Option ℝ :=
  a.bind (fun x => b.map (fun y => x + y))

/-- NaN-propagating division of a loss scalar by a real constant. -/
noncomputable def odiv (a : Option ℝ) (c : ℝ) : Option ℝ :=
  a.map (fun x => x / c)

/-- The fourteen input tensors of `_loss_function`, with the documented
shapes (port declarations of `SGDDialogueStateLossNM.input_ports`). -/
structure Inputs where
  logit_intent_status : List (List ℝ)
  intent_status_labels : List Int
  logit_req_slot_status : List (List ℝ)
  requested_slot_status : List (List ℝ)
  req_slot_mask : List (List Bool)
  logit_cat_slot_status : List (List (List ℝ))
  categorical_slot_status : List (List Int)
  logit_cat_slot_value : List (List (List ℝ))
  categorical_slot_values : List (List Int)
  logit_noncat_slot_status : List (List (List ℝ))
  noncategorical_slot_status : List (List Int)
  logit_noncat_slot_start : List (List (List ℝ))
  logit_noncat_slot_end : List (List (List ℝ))
  noncategorical_slot_value_start : List (List Int)
  noncategorical_slot_value_end : List (List Int)

/-- Source: `intent_loss = self._cross_entropy(logit_intent_status, intent_status_labels)`. -/
noncomputable def intent_loss (r : Reduction) (inp : Inputs) : Option ℝ :=
  CrossEntropyLoss r inp.logit_intent_status inp.intent_status_labels

/-- Source: `requested_slot_loss = self._criterion_req_slots(
      logit_req_slot_status.view(-1)[req_slot_mask],
      requested_slot_status.view(-1)[req_slot_mask])`. -/
noncomputable def requested_slot_loss (r : Reduction) (inp : Inputs) : Option ℝ :=
  BCEWithLogitsLoss r
    (maskedSelect inp.logit_req_slot_status.flatten inp.req_slot_mask.flatten)
    (maskedSelect inp.requested_slot_status.flatten inp.req_slot_mask.flatten)

/-- Categorical slot status loss: zero-substituted (`0 * sum(logits)`) when
every flattened status label is the ignore sentinel, otherwise cross-entropy
on the `view(-1, 3)` logits. -/
noncomputable def cat_slot_status_loss (r : Reduction) (inp : Inputs) : Option ℝ :=
  if activeCount inp.categorical_slot_status.flatten = 0 then
    some (0 * inp.logit_cat_slot_status.flatten.flatten.sum)
  else
    CrossEntropyLoss r inp.logit_cat_slot_status.flatten
      inp.categorical_slot_status.flatten

/-- Categorical slot value loss: zero-substituted when every flattened value
label is the ignore sentinel, otherwise cross-entropy on the
`view(-1, max_num_slot_values)` logits. -/
noncomputable def cat_slot_value_loss (r : Reduction) (inp : Inputs) : Option ℝ :=
  if activeCount inp.categorical_slot_values.flatten = 0 then
    some (0 * inp.logit_cat_slot_value.flatten.flatten.sum)
  else
    CrossEntropyLoss r inp.logit_cat_slot_value.flatten
      inp.categorical_slot_values.flatten

/-- Non-categorical slot status loss: zero-substituted when every flattened
status label is the ignore sentinel, otherwise cross-entropy. -/
noncomputable def noncat_slot_status_loss (r : Reduction) (inp : Inputs) : Option ℝ :=
  if activeCount inp.noncategorical_slot_status.flatten = 0 then
    some (0 * inp.logit_noncat_slot_status.flatten.flatten.sum)
  else
    CrossEntropyLoss r inp.logit_noncat_slot_status.flatten
      inp.noncategorical_slot_status.flatten

/-- Span-start loss: the degenerate check is on the span-START labels. -/
noncomputable def span_start_loss (r : Reduction) (inp : Inputs) : Option ℝ :=
  if activeCount inp.noncategorical_slot_value_start.flatten = 0 then
    some (0 * inp.logit_noncat_slot_start.flatten.flatten.sum)
  else
    CrossEntropyLoss r inp.logit_noncat_slot_start.flatten
      inp.noncategorical_slot_value_start.flatten

/-- Span-end loss: the degenerate check is on the span-START labels (the
source gates both span losses on `noncategorical_slot_value_start`). -/
noncomputable def span_end_loss (r : Reduction) (inp : Inputs) : Option ℝ :=
  if activeCount inp.noncategorical_slot_value_start.flatten = 0 then
    some (0 * inp.logit_noncat_slot_end.flatten.flatten.sum)
  else
    CrossEntropyLoss r inp.logit_noncat_slot_end.flatten
      inp.noncategorical_slot_value_end.flatten

/-- The seven sub-losses, in the order of the `losses` dict of the source. -/
noncomputable def lossList (r : Reduction) (inp : Inputs) : List (Option ℝ) :=
  [intent_loss r inp, requested_slot_loss r inp, cat_slot_status_loss r inp,
   cat_slot_value_loss r inp, noncat_slot_status_loss r inp,
   span_start_loss r inp, span_end_loss r inp]

/-- Source: `SGDDialogueStateLossNM._loss_function`:
`total_loss = sum(losses.values())`, then divided by `len(losses)` under
`'mean'` reduction, and by `logit_intent_status.shape[0]` otherwise. -/
noncomputable def _loss_function (r : Reduction) (inp : Inputs) : Option ℝ :=
  let total := (lossList r inp).foldl oadd (some 0)
  match r with
  | Reduction.mean => odiv total ((lossList r inp).length : ℝ)
  | Reduction.sum => odiv total ((inp.logit_intent_status.length : ℕ) : ℝ)

/-- Source: `SGDDialogueStateLossNM.__init__`: the retained reduction mode together
with whether the unsupported-reduction warning was logged.  Any string other
than `'mean'` and `'sum'` warns and falls back to `'mean'`. -/
def init (reduction : String) : Reduction × Bool :=
  if reduction = "mean" then (Reduction.mean, false)
  else if reduction = "sum" then (Reduction.sum, false)
  else (Reduction.mean, true)

/-- The four warning messages `_loss_function` can log, fired exactly when
the corresponding degenerate-batch check holds.  Neither the intent loss nor
the requested-slot loss has an associated warning. -/
def lossWarnings (inp : Inputs) : List String :=
  (if activeCount inp.categorical_slot_status.flatten = 0 then
    ["No active categorical slots in the batch"] else []) ++
  (if activeCount inp.categorical_slot_values.flatten = 0 then
    ["No active values for categorical slots in the batch."] else []) ++
  (if activeCount inp.noncategorical_slot_status.flatten = 0 then
    ["No active non-categorical slots in the batch."] else []) ++
  (if activeCount inp.noncategorical_slot_value_start.flatten = 0 then
    ["No active values for non-categorical slots in the batch."] else [])

/-- The targets of a cross-entropy call are consistent with its logits:
same effective length, and every non-ignored target is a valid class index
into its logit row. -/
def ValidLabels (logits : List (List ℝ)) (targets : List Int) : Prop :=
  targets.length = logits.length ∧
  ∀ p ∈ logits.zip targets, p.2 ≠ IGNORE_INDEX →
    0 ≤ p.2 ∧ p.2.toNat < p.1.length

/-- Well-formedness of the fourteen tensors: positive batch dimension,
mutually consistent shapes for each cross-entropy call, aligned
requested-slot tensors, and requested-slot float labels in {0, 1}
(the documented label semantics). -/
def wellFormed (inp : Inputs) : Prop :=
  0 < inp.logit_intent_status.length ∧
  ValidLabels inp.logit_intent_status inp.intent_status_labels ∧
  ValidLabels inp.logit_cat_slot_status.flatten inp.categorical_slot_status.flatten ∧
  ValidLabels inp.logit_cat_slot_value.flatten inp.categorical_slot_values.flatten ∧
  ValidLabels inp.logit_noncat_slot_status.flatten inp.noncategorical_slot_status.flatten ∧
  ValidLabels inp.logit_noncat_slot_start.flatten inp.noncategorical_slot_value_start.flatten ∧
  ValidLabels inp.logit_noncat_slot_end.flatten inp.noncategorical_slot_value_end.flatten ∧
  inp.requested_slot_status.flatten.length = inp.logit_req_slot_status.flatten.length ∧
  inp.req_slot_mask.flatten.length = inp.logit_req_slot_status.flatten.length ∧
  ∀ y ∈ inp.requested_slot_status.flatten, y = 0 ∨ y = 1

/-! ## Basic lemmas about the NaN-propagating scalar arithmetic -/

@[simp]
theorem oadd_none_left (b : Option ℝ) : oadd none b = none := rfl

@[simp]
theorem oadd_none_right (a : Option ℝ) : oadd a none = none := by
  cases a <;> rfl

@[simp]
theorem oadd_some_some (x y : ℝ) : oadd (some x) (some y) = some (x + y) := rfl

@[simp]
theorem odiv_none (c : ℝ) : odiv none c = none := rfl

@[simp]
theorem odiv_some (x c : ℝ) : odiv (some x) c = some (x / c) := rfl

theorem oadd_zero_left (a : Option ℝ) : oadd (some 0) a = a := by
  cases a <;> simp

theorem oadd_zero_right (a : Option ℝ) : oadd a (some 0) = a := by
  cases a <;> simp

theorem oadd_assoc (a b c : Option ℝ) : oadd (oadd a b) c = oadd a (oadd b c) := by
  cases a <;> cases b <;> cases c <;> simp [add_assoc]

/-! ## Lemmas about lists, filtering and masking -/

theorem length_filter_zip_snd {α β : Type} (q : β → Bool) :
    ∀ (l₁ : List α) (l₂ : List β), l₂.length = l₁.length →
    ((l₁.zip l₂).filter (fun p => q p.2)).length = (l₂.filter q).length := by
  intro l₁
  induction l₁ with
  | nil => intro l₂ h; cases l₂ <;> simp_all
  | cons a l₁ ih =>
    intro l₂ h
    cases l₂ with
    | nil => simp at h
    | cons b l₂ =>
      simp only [List.length_cons, Nat.succ.injEq] at h
      rw [List.zip_cons_cons, List.filter_cons, List.filter_cons]
      cases hb : q b <;> simp [hb, ih l₂ h]

theorem filter_zip_snd_eq_nil {α β : Type} (q : β → Bool)
    (l₁ : List α) (l₂ : List β) (h : ∀ b ∈ l₂, q b = false) :
    (l₁.zip l₂).filter (fun p => q p.2) = [] := by
  rw [List.filter_eq_nil_iff]
  intro p hp
  have := (List.of_mem_zip hp).2
  simp [h p.2 this]

theorem mem_maskedSelect {α : Type} (xs : List α) (m : List Bool) :
    ∀ a ∈ maskedSelect xs m, a ∈ xs := by
  intro a ha
  simp only [maskedSelect, List.mem_map] at ha
  obtain ⟨p, hp, rfl⟩ := ha
  exact (List.of_mem_zip (List.mem_of_mem_filter hp)).1

theorem maskedSelect_length {α : Type} (xs : List α) (m : List Bool)
    (h : m.length = xs.length) :
    (maskedSelect xs m).length = (m.filter (fun b => b)).length := by
  simp only [maskedSelect, List.length_map]
  exact length_filter_zip_snd (fun b => b) xs m h

theorem activeCount_eq_zero_iff (targets : List Int) :
    activeCount targets = 0 ↔ ∀ y ∈ targets, y = IGNORE_INDEX := by
  simp only [activeCount, List.length_eq_zero, List.filter_eq_nil_iff, bne_iff_ne,
    ne_eq, not_not]

/-! ## Non-negativity and definedness of the framework loss primitives -/

theorem nllTerm_nonneg (row : List ℝ) (y : Int) (h : y.toNat < row.length) :
    0 ≤ nllTerm row y := by
  have hv : row.getD y.toNat 0 ∈ row := by
    rw [List.getD_eq_getElem row 0 h]
    exact List.getElem_mem h
  have h1 : Real.exp (row.getD y.toNat 0) ≤ (row.map Real.exp).sum := by
    refine List.single_le_sum ?_ _ (List.mem_map_of_mem Real.exp hv)
    intro x hx
    obtain ⟨z, _, rfl⟩ := List.mem_map.mp hx
    exact le_of_lt (Real.exp_pos z)
  have h2 : row.getD y.toNat 0 ≤ lse row := by
    have := Real.log_le_log (Real.exp_pos _) h1
    rwa [Real.log_exp] at this
  simp only [nllTerm]
  linarith

theorem ce_act_terms_nonneg (logits : List (List ℝ)) (targets : List Int)
    (h : ValidLabels logits targets) :
    ∀ p ∈ ceActive logits targets, 0 ≤ nllTerm p.1 p.2 := by
  intro p hp
  have hz := List.mem_of_mem_filter hp
  have hq := List.of_mem_filter hp
  have hne : p.2 ≠ IGNORE_INDEX := by simpa using hq
  exact nllTerm_nonneg _ _ (h.2 p hz hne).2

theorem ceTotal_nonneg (logits : List (List ℝ)) (targets : List Int)
    (h : ValidLabels logits targets) : 0 ≤ ceTotal logits targets := by
  refine List.sum_nonneg ?_
  intro t ht
  obtain ⟨p, hp, rfl⟩ := List.mem_map.mp ht
  exact ce_act_terms_nonneg logits targets h p hp

theorem ceActive_length (logits : List (List ℝ)) (targets : List Int)
    (hlen : targets.length = logits.length) :
    (ceActive logits targets).length = activeCount targets :=
  length_filter_zip_snd (fun y => y != IGNORE_INDEX) logits targets hlen

theorem ceActive_eq_nil (logits : List (List ℝ)) (targets : List Int)
    (h : activeCount targets = 0) : ceActive logits targets = [] := by
  have hall := (activeCount_eq_zero_iff targets).mp h
  refine filter_zip_snd_eq_nil (fun y => y != IGNORE_INDEX) logits targets ?_
  intro b hb
  simp [hall b hb]

theorem CrossEntropyLoss_sum_some_nonneg (logits : List (List ℝ))
    (targets : List Int) (h : ValidLabels logits targets) :
    ∃ x, CrossEntropyLoss Reduction.sum logits targets = some x ∧ 0 ≤ x :=
  ⟨ceTotal logits targets, rfl, ceTotal_nonneg logits targets h⟩

theorem CrossEntropyLoss_mean_some_nonneg (logits : List (List ℝ))
    (targets : List Int) (h : ValidLabels logits targets)
    (hact : 0 < activeCount targets) :
    ∃ x, CrossEntropyLoss Reduction.mean logits targets = some x ∧ 0 ≤ x := by
  have hlen := ceActive_length logits targets h.1
  have hne : (ceActive logits targets).length ≠ 0 := by omega
  refine ⟨ceTotal logits targets / ((ceActive logits targets).length : ℝ), ?_, ?_⟩
  · simp only [CrossEntropyLoss, if_neg hne]
  · exact div_nonneg (ceTotal_nonneg logits targets h) (Nat.cast_nonneg _)

theorem CrossEntropyLoss_mean_degenerate (logits : List (List ℝ))
    (targets : List Int) (h : activeCount targets = 0) :
    CrossEntropyLoss Reduction.mean logits targets = none := by
  simp [CrossEntropyLoss, ceActive_eq_nil logits targets h]

theorem sigmoid_pos (x : ℝ) : 0 < sigmoid x := by
  have := Real.exp_pos (-x)
  simp only [sigmoid]
  positivity

theorem sigmoid_lt_one (x : ℝ) : sigmoid x < 1 := by
  have h := Real.exp_pos (-x)
  simp only [sigmoid]
  rw [div_lt_one (by linarith)]
  linarith

theorem bceTerm_nonneg (x y : ℝ) (h0 : 0 ≤ y) (h1 : y ≤ 1) : 0 ≤ bceTerm x y := by
  have hs0 := sigmoid_pos x
  have hs1 := sigmoid_lt_one x
  have l1 : Real.log (sigmoid x) ≤ 0 := Real.log_nonpos (le_of_lt hs0) (le_of_lt hs1)
  have l2 : Real.log (1 - sigmoid x) ≤ 0 := Real.log_nonpos (by linarith) (by linarith)
  have t1 : y * Real.log (sigmoid x) ≤ 0 := by
    calc y * Real.log (sigmoid x) ≤ y * 0 := mul_le_mul_of_nonneg_left l1 h0
    _ = 0 := by ring
  have t2 : (1 - y) * Real.log (1 - sigmoid x) ≤ 0 := by
    calc (1 - y) * Real.log (1 - sigmoid x) ≤ (1 - y) * 0 :=
      mul_le_mul_of_nonneg_left l2 (by linarith)
    _ = 0 := by ring
  simp only [bceTerm]
  linarith

theorem bceTerms_nonneg (x y : List ℝ) (hy : ∀ v ∈ y, 0 ≤ v ∧ v ≤ 1) :
    ∀ t ∈ bceTerms x y, 0 ≤ t := by
  intro t ht
  obtain ⟨p, hp, rfl⟩ := List.mem_map.mp ht
  have hv := hy p.2 (List.of_mem_zip hp).2
  exact bceTerm_nonneg p.1 p.2 hv.1 hv.2

theorem BCEWithLogitsLoss_sum_some_nonneg (x y : List ℝ)
    (hy : ∀ v ∈ y, 0 ≤ v ∧ v ≤ 1) :
    ∃ t, BCEWithLogitsLoss Reduction.sum x y = some t ∧ 0 ≤ t :=
  ⟨(bceTerms x y).sum, rfl, List.sum_nonneg (bceTerms_nonneg x y hy)⟩

theorem BCEWithLogitsLoss_mean_some_nonneg (x y : List ℝ)
    (hy : ∀ v ∈ y, 0 ≤ v ∧ v ≤ 1) (hne : (bceTerms x y).length ≠ 0) :
    ∃ t, BCEWithLogitsLoss Reduction.mean x y = some t ∧ 0 ≤ t := by
  refine ⟨(bceTerms x y).sum / ((bceTerms x y).length : ℝ), ?_, ?_⟩
  · simp only [BCEWithLogitsLoss, if_neg hne]
  · exact div_nonneg (List.sum_nonneg (bceTerms_nonneg x y hy)) (Nat.cast_nonneg _)

theorem BCEWithLogitsLoss_mean_empty (x y : List ℝ)
    (h : (bceTerms x y).length = 0) :
    BCEWithLogitsLoss Reduction.mean x y = none := by
  simp only [BCEWithLogitsLoss, if_pos h]

/-! ## Masked-selection congruence -/

theorem maskedSelect_cons_true {α : Type} (x : α) (xs : List α) (m : List Bool) :
    maskedSelect (x :: xs) (true :: m) = x :: maskedSelect xs m := by
  simp [maskedSelect]

theorem maskedSelect_cons_false {α : Type} (x : α) (xs : List α) (m : List Bool) :
    maskedSelect (x :: xs) (false :: m) = maskedSelect xs m := by
  simp [maskedSelect]

theorem maskedSelect_congr {α : Type} :
    ∀ (m : List Bool) (xs ys : List α), xs.length = ys.length →
    (∀ i, m.getD i false = true → xs[i]? = ys[i]?) →
    maskedSelect xs m = maskedSelect ys m := by
  intro m
  induction m with
  | nil => intro xs ys _ _; simp [maskedSelect]
  | cons b m ih =>
    intro xs ys hlen h
    cases xs with
    | nil =>
      cases ys with
      | nil => rfl
      | cons y ys => simp at hlen
    | cons x xs =>
      cases ys with
      | nil => simp at hlen
      | cons y ys =>
        simp only [List.length_cons, Nat.succ.injEq] at hlen
        have htail : ∀ i, m.getD i false = true → xs[i]? = ys[i]? := by
          intro i hi
          have := h (i + 1) (by simpa using hi)
          simpa using this
        cases b with
        | false =>
          rw [maskedSelect_cons_false, maskedSelect_cons_false]
          exact ih xs ys hlen htail
        | true =>
          have hx : x = y := by
            have := h 0 (by simp)
            simpa using this
          rw [maskedSelect_cons_true, maskedSelect_cons_true, hx,
            ih xs ys hlen htail]

theorem filter_true_length_pos (m : List Bool) (ht : true ∈ m) :
    0 < (m.filter (fun b => b)).length := by
  rw [List.length_pos]
  intro hnil
  rw [List.filter_eq_nil_iff] at hnil
  exact hnil true ht rfl

/-! ## Concrete values of the loss primitives at simple inputs -/

theorem lse_pair_zero : lse [0, 0] = Real.log 2 := by
  simp [lse, Real.exp_zero]
  norm_num

theorem sigmoid_zero : sigmoid 0 = 1 / 2 := by
  simp [sigmoid, Real.exp_zero]
  norm_num

theorem bceTerm_zero_zero : bceTerm 0 0 = Real.log 2 := by
  rw [bceTerm, sigmoid_zero]
  norm_num
  rw [one_div, Real.log_inv]
  ring

/-! ## Concrete batches used as witnesses and counterexamples -/

/-- Batch of size 1 in which every labelled sub-task is entirely the ignore
sentinel and the requested-slot mask selects one position. -/
def inpA : Inputs where
  logit_intent_status := [[0, 0]]
  intent_status_labels := [-100]
  logit_req_slot_status := [[0]]
  requested_slot_status := [[0]]
  req_slot_mask := [[true]]
  logit_cat_slot_status := [[[0, 0, 0]]]
  categorical_slot_status := [[-100]]
  logit_cat_slot_value := [[[0, 0]]]
  categorical_slot_values := [[-100]]
  logit_noncat_slot_status := [[[0, 0, 0]]]
  noncategorical_slot_status := [[-100]]
  logit_noncat_slot_start := [[[0, 0]]]
  logit_noncat_slot_end := [[[0, 0]]]
  noncategorical_slot_value_start := [[-100]]
  noncategorical_slot_value_end := [[-100]]

/-- Like `inpA` but with one active intent label. -/
def inpB : Inputs := { inpA with intent_status_labels := [0] }

/-- Like `inpA` but with an active span-start label while every span-end
label stays the ignore sentinel. -/
def inpC : Inputs := { inpA with noncategorical_slot_value_start := [[0]] }

/-- Like `inpA` but with an active span-end label while every span-start
label stays the ignore sentinel. -/
def inpE : Inputs := { inpA with noncategorical_slot_value_end := [[0]] }

/-- Batch of size 1 in which every sub-task has an active label. -/
def inpF : Inputs :=
  { inpA with
    intent_status_labels := [0]
    requested_slot_status := [[1]]
    categorical_slot_status := [[1]]
    categorical_slot_values := [[0]]
    noncategorical_slot_status := [[2]]
    noncategorical_slot_value_start := [[0]]
    noncategorical_slot_value_end := [[1]] }

/-- Like `inpA` but with a requested-slot mask that selects no position. -/
def inpG : Inputs := { inpA with req_slot_mask := [[false]] }

/-- First element of the requested-slot noninterference pair: the mask hides
position 1. -/
def inpD1 : Inputs :=
  { inpA with
    logit_req_slot_status := [[1, 5]]
    requested_slot_status := [[0, 0]]
    req_slot_mask := [[true, false]] }

/-- Second element of the pair: differs from `inpD1` in the requested-slot
logit and label only at the masked-out position 1. -/
def inpD2 : Inputs :=
  { inpA with
    logit_req_slot_status := [[1, 7]]
    requested_slot_status := [[0, 1]]
    req_slot_mask := [[true, false]] }

/-! ## Shared facts about the gated sub-losses and the aggregation fold -/

theorem gatedCE_some_nonneg (r : Reduction) (s : ℝ) (logits : List (List ℝ))
    (targets : List Int) (h : ValidLabels logits targets) :
    ∃ x, (if activeCount targets = 0 then some (0 * s)
          else CrossEntropyLoss r logits targets) = some x ∧ 0 ≤ x := by
  by_cases h0 : activeCount targets = 0
  · exact ⟨0, by simp [h0], le_refl 0⟩
  · rw [if_neg h0]
    cases r with
    | sum => exact CrossEntropyLoss_sum_some_nonneg logits targets h
    | mean =>
        exact CrossEntropyLoss_mean_some_nonneg logits targets h
          (Nat.pos_of_ne_zero h0)

theorem total_foldl (r : Reduction) (inp : Inputs) :
    (lossList r inp).foldl oadd (some 0) =
      oadd (intent_loss r inp) (oadd (requested_slot_loss r inp)
        (oadd (cat_slot_status_loss r inp) (oadd (cat_slot_value_loss r inp)
        (oadd (noncat_slot_status_loss r inp) (oadd (span_start_loss r inp)
        (span_end_loss r inp)))))) := by
  simp only [lossList, List.foldl]
  simp [oadd_assoc, oadd_zero_left]

theorem loss_function_mean_eq (inp : Inputs) :
    _loss_function Reduction.mean inp =
      odiv ((lossList Reduction.mean inp).foldl oadd (some 0)) 7 := by
  simp only [_loss_function, lossList]
  norm_num

theorem loss_function_sum_eq (inp : Inputs) :
    _loss_function Reduction.sum inp =
      odiv ((lossList Reduction.sum inp).foldl oadd (some 0))
        ((inp.logit_intent_status.length : ℝ)) := rfl

/-! ## Claim C1 -/

/-- C1: for every input, the returned scalar is the sum of the seven
sub-losses divided by the constant 7 under `'mean'` reduction, and divided by
the batch size read from the first dimension of the intent logits under
`'sum'` reduction.  Stated both at the NaN-propagating level and, for any
scalars the sub-losses take, at the real-scalar level. -/
theorem sgd_c1_total_loss_aggregation (inp : Inputs) :
    (_loss_function Reduction.mean inp =
      odiv (oadd (intent_loss Reduction.mean inp) (oadd (requested_slot_loss Reduction.mean inp)
        (oadd (cat_slot_status_loss Reduction.mean inp) (oadd (cat_slot_value_loss Reduction.mean inp)
        (oadd (noncat_slot_status_loss Reduction.mean inp) (oadd (span_start_loss Reduction.mean inp)
        (span_end_loss Reduction.mean inp))))))) 7) ∧
    (_loss_function Reduction.sum inp =
      odiv (oadd (intent_loss Reduction.sum inp) (oadd (requested_slot_loss Reduction.sum inp)
        (oadd (cat_slot_status_loss Reduction.sum inp) (oadd (cat_slot_value_loss Reduction.sum inp)
        (oadd (noncat_slot_status_loss Reduction.sum inp) (oadd (span_start_loss Reduction.sum inp)
        (span_end_loss Reduction.sum inp))))))) ((inp.logit_intent_status.length : ℝ))) ∧
    (∀ x₁ x₂ x₃ x₄ x₅ x₆ x₇ : ℝ,
      intent_loss Reduction.mean inp = some x₁ →
      requested_slot_loss Reduction.mean inp = some x₂ →
      cat_slot_status_loss Reduction.mean inp = some x₃ →
      cat_slot_value_loss Reduction.mean inp = some x₄ →
      noncat_slot_status_loss Reduction.mean inp = some x₅ →
      span_start_loss Reduction.mean inp = some x₆ →
      span_end_loss Reduction.mean inp = some x₇ →
      _loss_function Reduction.mean inp =
        some ((x₁ + x₂ + x₃ + x₄ + x₅ + x₆ + x₇) / 7)) ∧
    (∀ x₁ x₂ x₃ x₄ x₅ x₆ x₇ : ℝ,
      intent_loss Reduction.sum inp = some x₁ →
      requested_slot_loss Reduction.sum inp = some x₂ →
      cat_slot_status_loss Reduction.sum inp = some x₃ →
      cat_slot_value_loss Reduction.sum inp = some x₄ →
      noncat_slot_status_loss Reduction.sum inp = some x₅ →
      span_start_loss Reduction.sum inp = some x₆ →
      span_end_loss Reduction.sum inp = some x₇ →
      _loss_function Reduction.sum inp =
        some ((x₁ + x₂ + x₃ + x₄ + x₅ + x₆ + x₇) /
          ((inp.logit_intent_status.length : ℝ)))) := by
  have hm : _loss_function Reduction.mean inp =
      odiv (oadd (intent_loss Reduction.mean inp) (oadd (requested_slot_loss Reduction.mean inp)
        (oadd (cat_slot_status_loss Reduction.mean inp) (oadd (cat_slot_value_loss Reduction.mean inp)
        (oadd (noncat_slot_status_loss Reduction.mean inp) (oadd (span_start_loss Reduction.mean inp)
        (span_end_loss Reduction.mean inp))))))) 7 := by
    rw [loss_function_mean_eq, total_foldl]
  have hs : _loss_function Reduction.sum inp =
      odiv (oadd (intent_loss Reduction.sum inp) (oadd (requested_slot_loss Reduction.sum inp)
        (oadd (cat_slot_status_loss Reduction.sum inp) (oadd (cat_slot_value_loss Reduction.sum inp)
        (oadd (noncat_slot_status_loss Reduction.sum inp) (oadd (span_start_loss Reduction.sum inp)
        (span_end_loss Reduction.sum inp))))))) ((inp.logit_intent_status.length : ℝ)) := by
    rw [loss_function_sum_eq, total_foldl]
  refine ⟨hm, hs, ?_, ?_⟩
  · intro x₁ x₂ x₃ x₄ x₅ x₆ x₇ h₁ h₂ h₃ h₄ h₅ h₆ h₇
    rw [hm, h₁, h₂, h₃, h₄, h₅, h₆, h₇]
    simp only [oadd_some_some, odiv_some, Option.some.injEq]
    ring
  · intro x₁ x₂ x₃ x₄ x₅ x₆ x₇ h₁ h₂ h₃ h₄ h₅ h₆ h₇
    rw [hs, h₁, h₂, h₃, h₄, h₅, h₆, h₇]
    simp only [oadd_some_some, odiv_some, Option.some.injEq]
    ring

/-- Witness for C1 at the concrete batch `inpB`, under both reductions. -/
theorem sgd_c1_total_loss_aggregation_witness :
    _loss_function Reduction.mean inpB =
      some ((Real.log 2 + Real.log 2 + 0 + 0 + 0 + 0 + 0) / 7) ∧
    _loss_function Reduction.sum inpB =
      some ((Real.log 2 + Real.log 2 + 0 + 0 + 0 + 0 + 0) /
        ((inpB.logit_intent_status.length : ℝ))) := by
  have hint_m : intent_loss Reduction.mean inpB = some (Real.log 2) := by
    simp [intent_loss, CrossEntropyLoss, ceActive, ceTotal, nllTerm, inpB, inpA,
      IGNORE_INDEX, lse_pair_zero]
  have hint_s : intent_loss Reduction.sum inpB = some (Real.log 2) := by
    simp [intent_loss, CrossEntropyLoss, ceActive, ceTotal, nllTerm, inpB, inpA,
      IGNORE_INDEX, lse_pair_zero]
  have hreq_m : requested_slot_loss Reduction.mean inpB = some (Real.log 2) := by
    simp [requested_slot_loss, BCEWithLogitsLoss, bceTerms, maskedSelect, inpB,
      inpA, bceTerm_zero_zero]
  have hreq_s : requested_slot_loss Reduction.sum inpB = some (Real.log 2) := by
    simp [requested_slot_loss, BCEWithLogitsLoss, bceTerms, maskedSelect, inpB,
      inpA, bceTerm_zero_zero]
  have hcs : ∀ r, cat_slot_status_loss r inpB = some 0 := by
    intro r; simp [cat_slot_status_loss, activeCount, inpB, inpA, IGNORE_INDEX]
  have hcv : ∀ r, cat_slot_value_loss r inpB = some 0 := by
    intro r; simp [cat_slot_value_loss, activeCount, inpB, inpA, IGNORE_INDEX]
  have hns : ∀ r, noncat_slot_status_loss r inpB = some 0 := by
    intro r; simp [noncat_slot_status_loss, activeCount, inpB, inpA, IGNORE_INDEX]
  have hss : ∀ r, span_start_loss r inpB = some 0 := by
    intro r; simp [span_start_loss, activeCount, inpB, inpA, IGNORE_INDEX]
  have hse : ∀ r, span_end_loss r inpB = some 0 := by
    intro r; simp [span_end_loss, activeCount, inpB, inpA, IGNORE_INDEX]
  exact ⟨(sgd_c1_total_loss_aggregation inpB).2.2.1 _ _ _ _ _ _ _
      hint_m hreq_m (hcs _) (hcv _) (hns _) (hss _) (hse _),
    (sgd_c1_total_loss_aggregation inpB).2.2.2 _ _ _ _ _ _ _
      hint_s hreq_s (hcs _) (hcv _) (hns _) (hss _) (hse _)⟩

/-! ## Claim C2 -/

/-- C2 counterexample: in `inpC` every span-end label is the ignore sentinel,
yet the span-end sub-loss is not the zero substitute: because the degenerate
check looks at the span-START labels (which contain an active one), the
span-end cross-entropy is computed over an empty effective population and is
NaN (`none`), not `0`. -/
theorem sgd_c2_counterexample :
    (∀ y ∈ inpC.noncategorical_slot_value_end.flatten, y = IGNORE_INDEX) ∧
    span_end_loss Reduction.mean inpC = none ∧
    span_end_loss Reduction.mean inpC ≠ some 0 := by
  have h : span_end_loss Reduction.mean inpC = none := by
    simp [span_end_loss, activeCount, inpC, inpA, IGNORE_INDEX,
      CrossEntropyLoss, ceActive]
  exact ⟨by decide, h, by simp [h]⟩

/-- C2 (amended): for the four guarded degenerate checks — categorical
status, categorical value, non-categorical status, and span-start — an
all-ignore label tensor makes the aggregator substitute zero times the sum
of the corresponding logits, so that sub-loss is exactly `0`; the span-start
check also substitutes the span-END loss.  The span-end labels themselves
are not consulted, and the intent and requested-slot losses have no
substitute (see C9, C10). -/
theorem sgd_c2_zero_substitution (r : Reduction) (inp : Inputs) :
    (activeCount inp.categorical_slot_status.flatten = 0 →
      cat_slot_status_loss r inp =
        some (0 * inp.logit_cat_slot_status.flatten.flatten.sum) ∧
      cat_slot_status_loss r inp = some 0) ∧
    (activeCount inp.categorical_slot_values.flatten = 0 →
      cat_slot_value_loss r inp =
        some (0 * inp.logit_cat_slot_value.flatten.flatten.sum) ∧
      cat_slot_value_loss r inp = some 0) ∧
    (activeCount inp.noncategorical_slot_status.flatten = 0 →
      noncat_slot_status_loss r inp =
        some (0 * inp.logit_noncat_slot_status.flatten.flatten.sum) ∧
      noncat_slot_status_loss r inp = some 0) ∧
    (activeCount inp.noncategorical_slot_value_start.flatten = 0 →
      span_start_loss r inp =
        some (0 * inp.logit_noncat_slot_start.flatten.flatten.sum) ∧
      span_start_loss r inp = some 0 ∧
      span_end_loss r inp =
        some (0 * inp.logit_noncat_slot_end.flatten.flatten.sum) ∧
      span_end_loss r inp = some 0) := by
  refine ⟨?_, ?_, ?_, ?_⟩ <;> intro h
  · simp [cat_slot_status_loss, h]
  · simp [cat_slot_value_loss, h]
  · simp [noncat_slot_status_loss, h]
  · simp [span_start_loss, span_end_loss, h]

/-- Witness for C2 at `inpA`, whose guarded label tensors are all-ignore. -/
theorem sgd_c2_zero_substitution_witness :
    cat_slot_status_loss Reduction.mean inpA = some 0 ∧
    span_start_loss Reduction.mean inpA = some 0 ∧
    span_end_loss Reduction.mean inpA = some 0 :=
  ⟨((sgd_c2_zero_substitution Reduction.mean inpA).1 (by decide)).2,
   ((sgd_c2_zero_substitution Reduction.mean inpA).2.2.2 (by decide)).2.1,
   ((sgd_c2_zero_substitution Reduction.mean inpA).2.2.2 (by decide)).2.2.2⟩

/-! ## Claim C3 -/

/-- Batch like `inpB` (one active intent label, mask selecting a position)
but with an active span-start label while every span-end label stays the
ignore sentinel: the span-end cross-entropy then runs over an empty
effective population. -/
def inpH : Inputs := { inpB with noncategorical_slot_value_start := [[0]] }

/-- C3 counterexample: two well-formed batches on which the `'mean'` total
loss is NaN (`none`), not a finite scalar.  In `inpA` every intent label is
the ignore sentinel and the unguarded intent cross-entropy divides by an
effective population of zero.  In `inpH` the intent is active and the mask
selects a position, but span-start is active while every span-end label is
ignored, so the span-end cross-entropy divides by zero. -/
theorem sgd_c3_counterexample :
    (wellFormed inpA ∧ _loss_function Reduction.mean inpA = none) ∧
    (wellFormed inpH ∧ 0 < activeCount inpH.intent_status_labels ∧
     true ∈ inpH.req_slot_mask.flatten ∧
     _loss_function Reduction.mean inpH = none) := by
  refine ⟨⟨?_, ?_⟩, ?_, by decide, by decide, ?_⟩
  · constructor
    · simp [inpA]
    · refine ⟨⟨by simp [inpA], ?_⟩, ?_, ?_, ?_, ?_, ?_, ?_, ?_, ?_⟩ <;>
        simp [inpA, ValidLabels, IGNORE_INDEX]
  · simp [_loss_function, lossList, intent_loss, CrossEntropyLoss, ceActive,
      inpA, IGNORE_INDEX, oadd, odiv]
  · constructor
    · simp [inpH, inpB, inpA]
    · refine ⟨⟨by simp [inpH, inpB, inpA], ?_⟩, ?_, ?_, ?_, ?_, ?_, ?_, ?_, ?_⟩ <;>
        simp [inpH, inpB, inpA, ValidLabels, IGNORE_INDEX]
  · simp [_loss_function, lossList, intent_loss, requested_slot_loss,
      cat_slot_status_loss, cat_slot_value_loss, noncat_slot_status_loss,
      span_start_loss, span_end_loss, CrossEntropyLoss, ceActive, activeCount,
      BCEWithLogitsLoss, bceTerms, maskedSelect, inpH, inpB, inpA,
      IGNORE_INDEX, oadd, odiv]

/-- C3 (amended): for every well-formed input, the loss under `'sum'`
reduction is a finite non-negative scalar.  Under `'mean'` reduction it is a
finite non-negative scalar provided additionally that at least one intent
label is active, that the requested-slot mask selects at least one position,
and that the span-end cross-entropy is not run over an empty population
(span-start all-ignore, or some span-end label active); in the excluded
cases the result is NaN, as the counterexample shows. -/
theorem sgd_c3_finite_nonneg (inp : Inputs) (hwf : wellFormed inp) :
    (∃ x, _loss_function Reduction.sum inp = some x ∧ 0 ≤ x) ∧
    (0 < activeCount inp.intent_status_labels →
     true ∈ inp.req_slot_mask.flatten →
     (activeCount inp.noncategorical_slot_value_start.flatten = 0 ∨
      0 < activeCount inp.noncategorical_slot_value_end.flatten) →
     ∃ x, _loss_function Reduction.mean inp = some x ∧ 0 ≤ x) := by
  obtain ⟨hB, hIntent, hCatS, hCatV, hNonS, hStart, hEnd, hLen1, hLen2, hY⟩ := hwf
  have hYsel : ∀ v ∈ maskedSelect inp.requested_slot_status.flatten
      inp.req_slot_mask.flatten, 0 ≤ v ∧ v ≤ 1 := by
    intro v hv
    rcases hY v (mem_maskedSelect _ _ v hv) with h | h <;> rw [h] <;> norm_num
  constructor
  · obtain ⟨x₁, he₁, hx₁⟩ := CrossEntropyLoss_sum_some_nonneg _ _ hIntent
    obtain ⟨x₂, he₂, hx₂⟩ := BCEWithLogitsLoss_sum_some_nonneg _ _ hYsel
    obtain ⟨x₃, he₃, hx₃⟩ := gatedCE_some_nonneg Reduction.sum
      inp.logit_cat_slot_status.flatten.flatten.sum _ _ hCatS
    obtain ⟨x₄, he₄, hx₄⟩ := gatedCE_some_nonneg Reduction.sum
      inp.logit_cat_slot_value.flatten.flatten.sum _ _ hCatV
    obtain ⟨x₅, he₅, hx₅⟩ := gatedCE_some_nonneg Reduction.sum
      inp.logit_noncat_slot_status.flatten.flatten.sum _ _ hNonS
    obtain ⟨x₆, he₆, hx₆⟩ := gatedCE_some_nonneg Reduction.sum
      inp.logit_noncat_slot_start.flatten.flatten.sum _ _ hStart
    have he₁' : intent_loss Reduction.sum inp = some x₁ := he₁
    have he₂' : requested_slot_loss Reduction.sum inp = some x₂ := he₂
    have he₃' : cat_slot_status_loss Reduction.sum inp = some x₃ := he₃
    have he₄' : cat_slot_value_loss Reduction.sum inp = some x₄ := he₄
    have he₅' : noncat_slot_status_loss Reduction.sum inp = some x₅ := he₅
    have he₆' : span_start_loss Reduction.sum inp = some x₆ := he₆
    obtain ⟨x₇, he₇', hx₇⟩ :
        ∃ x, span_end_loss Reduction.sum inp = some x ∧ 0 ≤ x := by
      by_cases h0 : activeCount inp.noncategorical_slot_value_start.flatten = 0
      · exact ⟨0, by simp [span_end_loss, h0], le_refl 0⟩
      · obtain ⟨x, he, hx⟩ := CrossEntropyLoss_sum_some_nonneg _ _ hEnd
        exact ⟨x, by simp only [span_end_loss, if_neg h0]; exact he, hx⟩
    refine ⟨(x₁ + (x₂ + (x₃ + (x₄ + (x₅ + (x₆ + x₇)))))) /
      ((inp.logit_intent_status.length : ℝ)), ?_, ?_⟩
    · rw [loss_function_sum_eq, total_foldl, he₁', he₂', he₃', he₄', he₅',
        he₆', he₇']
      simp only [oadd_some_some, odiv_some]
    · exact div_nonneg (by linarith) (Nat.cast_nonneg _)
  · intro hact hmask hspan
    obtain ⟨x₁, he₁, hx₁⟩ := CrossEntropyLoss_mean_some_nonneg _ _ hIntent hact
    have hsel1 : (maskedSelect inp.logit_req_slot_status.flatten
        inp.req_slot_mask.flatten).length =
        (inp.req_slot_mask.flatten.filter (fun b => b)).length :=
      maskedSelect_length _ _ hLen2
    have hsel2 : (maskedSelect inp.requested_slot_status.flatten
        inp.req_slot_mask.flatten).length =
        (inp.req_slot_mask.flatten.filter (fun b => b)).length :=
      maskedSelect_length _ _ (hLen2.trans hLen1.symm)
    have hpos := filter_true_length_pos _ hmask
    have hne : (bceTerms
        (maskedSelect inp.logit_req_slot_status.flatten inp.req_slot_mask.flatten)
        (maskedSelect inp.requested_slot_status.flatten inp.req_slot_mask.flatten)).length ≠ 0 := by
      simp only [bceTerms, List.length_map, List.length_zip, hsel1, hsel2]
      omega
    obtain ⟨x₂, he₂, hx₂⟩ := BCEWithLogitsLoss_mean_some_nonneg _ _ hYsel hne
    obtain ⟨x₃, he₃, hx₃⟩ := gatedCE_some_nonneg Reduction.mean
      inp.logit_cat_slot_status.flatten.flatten.sum _ _ hCatS
    obtain ⟨x₄, he₄, hx₄⟩ := gatedCE_some_nonneg Reduction.mean
      inp.logit_cat_slot_value.flatten.flatten.sum _ _ hCatV
    obtain ⟨x₅, he₅, hx₅⟩ := gatedCE_some_nonneg Reduction.mean
      inp.logit_noncat_slot_status.flatten.flatten.sum _ _ hNonS
    obtain ⟨x₆, he₆, hx₆⟩ := gatedCE_some_nonneg Reduction.mean
      inp.logit_noncat_slot_start.flatten.flatten.sum _ _ hStart
    have he₁' : intent_loss Reduction.mean inp = some x₁ := he₁
    have he₂' : requested_slot_loss Reduction.mean inp = some x₂ := he₂
    have he₃' : cat_slot_status_loss Reduction.mean inp = some x₃ := he₃
    have he₄' : cat_slot_value_loss Reduction.mean inp = some x₄ := he₄
    have he₅' : noncat_slot_status_loss Reduction.mean inp = some x₅ := he₅
    have he₆' : span_start_loss Reduction.mean inp = some x₆ := he₆
    obtain ⟨x₇, he₇', hx₇⟩ :
        ∃ x, span_end_loss Reduction.mean inp = some x ∧ 0 ≤ x := by
      by_cases h0 : activeCount inp.noncategorical_slot_value_start.flatten = 0
      · exact ⟨0, by simp [span_end_loss, h0], le_refl 0⟩
      · rcases hspan with h0' | hposEnd
        · exact absurd h0' h0
        · obtain ⟨x, he, hx⟩ := CrossEntropyLoss_mean_some_nonneg _ _ hEnd hposEnd
          exact ⟨x, by simp only [span_end_loss, if_neg h0]; exact he, hx⟩
    refine ⟨(x₁ + (x₂ + (x₃ + (x₄ + (x₅ + (x₆ + x₇)))))) / 7, ?_, ?_⟩
    · rw [loss_function_mean_eq, total_foldl, he₁', he₂', he₃', he₄', he₅',
        he₆', he₇']
      simp only [oadd_some_some, odiv_some]
    · exact div_nonneg (by linarith) (by norm_num)

/-- Witness for C3 at the all-active batch `inpF`, both reductions. -/
theorem sgd_c3_finite_nonneg_witness :
    (∃ x, _loss_function Reduction.sum inpF = some x ∧ 0 ≤ x) ∧
    (∃ x, _loss_function Reduction.mean inpF = some x ∧ 0 ≤ x) := by
  have hwf : wellFormed inpF := by
    constructor
    · simp [inpF, inpA]
    · refine ⟨⟨by simp [inpF, inpA], ?_⟩, ?_, ?_, ?_, ?_, ?_, ?_, ?_, ?_⟩ <;>
        simp [inpF, inpA, ValidLabels, IGNORE_INDEX]
  exact ⟨(sgd_c3_finite_nonneg inpF hwf).1,
    (sgd_c3_finite_nonneg inpF hwf).2 (by decide) (by decide)
      (Or.inr (by decide))⟩

/-! ## Claim C4 -/

/-- C4: constructing the module with any reduction string outside
`{'mean', 'sum'}` never fails: the warning flag is set, the retained mode is
`'mean'`, and the computed loss on every input is identical to that of a
module constructed with `'mean'`. -/
theorem sgd_c4_reduction_fallback (s : String) (hs1 : s ≠ "mean")
    (hs2 : s ≠ "sum") (inp : Inputs) :
    init s = (Reduction.mean, true) ∧
    _loss_function (init s).1 inp = _loss_function Reduction.mean inp := by
  have h : init s = (Reduction.mean, true) := by simp [init, hs1, hs2]
  exact ⟨h, by rw [h]⟩

/-- Witness for C4 with the unsupported reduction string `'max'`. -/
theorem sgd_c4_reduction_fallback_witness :
    init "max" = (Reduction.mean, true) ∧
    _loss_function (init "max").1 inpA = _loss_function Reduction.mean inpA :=
  sgd_c4_reduction_fallback "max" (by decide) (by decide) inpA

/-! ## Claim C5 -/

/-- C5: the requested-slot loss reads only mask-selected positions.  Two
inputs with the same mask, the same flattened requested-slot shapes, and the
same logits and labels at every position where the mask is `true` produce
the same requested-slot sub-loss, no matter how they differ at mask-`false`
positions (or in any other tensor). -/
theorem sgd_c5_mask_noninterference (r : Reduction) (inp₁ inp₂ : Inputs)
    (hmask : inp₁.req_slot_mask = inp₂.req_slot_mask)
    (hlen₁ : inp₁.logit_req_slot_status.flatten.length =
      inp₂.logit_req_slot_status.flatten.length)
    (hlen₂ : inp₁.requested_slot_status.flatten.length =
      inp₂.requested_slot_status.flatten.length)
    (hlog : ∀ i, inp₁.req_slot_mask.flatten.getD i false = true →
      inp₁.logit_req_slot_status.flatten[i]? =
        inp₂.logit_req_slot_status.flatten[i]?)
    (hlab : ∀ i, inp₁.req_slot_mask.flatten.getD i false = true →
      inp₁.requested_slot_status.flatten[i]? =
        inp₂.requested_slot_status.flatten[i]?) :
    requested_slot_loss r inp₁ = requested_slot_loss r inp₂ := by
  have h1 : maskedSelect inp₁.logit_req_slot_status.flatten
      inp₁.req_slot_mask.flatten =
      maskedSelect inp₂.logit_req_slot_status.flatten
      inp₂.req_slot_mask.flatten := by
    rw [← hmask]
    exact maskedSelect_congr _ _ _ hlen₁ hlog
  have h2 : maskedSelect inp₁.requested_slot_status.flatten
      inp₁.req_slot_mask.flatten =
      maskedSelect inp₂.requested_slot_status.flatten
      inp₂.req_slot_mask.flatten := by
    rw [← hmask]
    exact maskedSelect_congr _ _ _ hlen₂ hlab
  simp only [requested_slot_loss, h1, h2]

/-- Witness for C5: `inpD1` and `inpD2` differ in the requested-slot logit
(5 vs 7) and label (0 vs 1) at position 1, which the mask hides, and their
requested-slot losses coincide. -/
theorem sgd_c5_mask_noninterference_witness :
    requested_slot_loss Reduction.mean inpD1 =
      requested_slot_loss Reduction.mean inpD2 := by
  refine sgd_c5_mask_noninterference Reduction.mean inpD1 inpD2 rfl rfl rfl ?_ ?_ <;>
  · intro i hi
    match i with
    | 0 => rfl
    | 1 => exact absurd hi (by decide)
    | (n + 2) =>
      exfalso
      have hi' : List.getD [true, false] (n + 2) false = true := hi
      rw [List.getD_eq_getElem?_getD, List.getElem?_eq_none (by simp)] at hi'
      simp at hi'

/-! ## Claim C6 -/

/-- C6 counterexample: in `inpE` the span-end sub-task itself is not
degenerate (its labels contain an active index), yet the span-end sub-loss
is not the cross-entropy of the span-end logits and labels: because the
span-START labels are all-ignore, the code substitutes the structural zero
for the span-end loss as well. -/
theorem sgd_c6_counterexample :
    0 < activeCount inpE.noncategorical_slot_value_end.flatten ∧
    span_end_loss Reduction.mean inpE ≠
      CrossEntropyLoss Reduction.mean inpE.logit_noncat_slot_end.flatten
        inpE.noncategorical_slot_value_end.flatten := by
  refine ⟨by decide, ?_⟩
  have h1 : span_end_loss Reduction.mean inpE = some 0 := by
    simp [span_end_loss, activeCount, inpE, inpA, IGNORE_INDEX]
  have h2 : CrossEntropyLoss Reduction.mean inpE.logit_noncat_slot_end.flatten
      inpE.noncategorical_slot_value_end.flatten = some (Real.log 2) := by
    simp [CrossEntropyLoss, ceActive, ceTotal, nllTerm, inpE, inpA,
      IGNORE_INDEX, lse_pair_zero]
  intro hc
  rw [h1, h2] at hc
  exact absurd (Option.some.inj hc).symm (ne_of_gt (Real.log_pos one_lt_two))

/-- C6 (amended): the intent loss is unconditionally the multi-class
cross-entropy of its logits and labels; each guarded sub-loss equals that
cross-entropy whenever its own gate is non-degenerate, where the gate of the
span-END loss is the span-START label tensor; and the cross-entropy itself
excludes ignore-index positions from both the loss sum (`ceTotal` ranges
over `ceActive` only) and the mean denominator (`activeCount`). -/
theorem sgd_c6_cross_entropy_sublosses (r : Reduction) (inp : Inputs) :
    intent_loss r inp =
      CrossEntropyLoss r inp.logit_intent_status inp.intent_status_labels ∧
    (0 < activeCount inp.categorical_slot_status.flatten →
      cat_slot_status_loss r inp = CrossEntropyLoss r
        inp.logit_cat_slot_status.flatten inp.categorical_slot_status.flatten) ∧
    (0 < activeCount inp.categorical_slot_values.flatten →
      cat_slot_value_loss r inp = CrossEntropyLoss r
        inp.logit_cat_slot_value.flatten inp.categorical_slot_values.flatten) ∧
    (0 < activeCount inp.noncategorical_slot_status.flatten →
      noncat_slot_status_loss r inp = CrossEntropyLoss r
        inp.logit_noncat_slot_status.flatten inp.noncategorical_slot_status.flatten) ∧
    (0 < activeCount inp.noncategorical_slot_value_start.flatten →
      span_start_loss r inp = CrossEntropyLoss r
        inp.logit_noncat_slot_start.flatten inp.noncategorical_slot_value_start.flatten ∧
      span_end_loss r inp = CrossEntropyLoss r
        inp.logit_noncat_slot_end.flatten inp.noncategorical_slot_value_end.flatten) ∧
    (∀ (logits : List (List ℝ)) (targets : List Int),
      targets.length = logits.length → 0 < activeCount targets →
      CrossEntropyLoss Reduction.mean logits targets =
        some (ceTotal logits targets / ((activeCount targets : ℝ))) ∧
      CrossEntropyLoss Reduction.sum logits targets =
        some (ceTotal logits targets)) := by
  refine ⟨rfl, ?_, ?_, ?_, ?_, ?_⟩
  · intro h
    rw [cat_slot_status_loss, if_neg (by omega)]
  · intro h
    rw [cat_slot_value_loss, if_neg (by omega)]
  · intro h
    rw [noncat_slot_status_loss, if_neg (by omega)]
  · intro h
    constructor
    · rw [span_start_loss, if_neg (by omega)]
    · rw [span_end_loss, if_neg (by omega)]
  · intro logits targets hlen hact
    have hl := ceActive_length logits targets hlen
    refine ⟨?_, rfl⟩
    rw [CrossEntropyLoss]
    rw [if_neg (by omega), hl]

/-- Witness for C6 at the all-active batch `inpF`, plus an instance of the
ignore-exclusion formula at a concrete cross-entropy call. -/
theorem sgd_c6_cross_entropy_sublosses_witness :
    cat_slot_status_loss Reduction.mean inpF =
      CrossEntropyLoss Reduction.mean inpF.logit_cat_slot_status.flatten
        inpF.categorical_slot_status.flatten ∧
    span_end_loss Reduction.mean inpF =
      CrossEntropyLoss Reduction.mean inpF.logit_noncat_slot_end.flatten
        inpF.noncategorical_slot_value_end.flatten ∧
    CrossEntropyLoss Reduction.mean [[0, 0]] [0] =
      some (ceTotal [[0, 0]] [0] / ((activeCount [0] : ℝ))) :=
  ⟨(sgd_c6_cross_entropy_sublosses Reduction.mean inpF).2.1 (by decide),
   ((sgd_c6_cross_entropy_sublosses Reduction.mean inpF).2.2.2.2.1 (by decide)).2,
   ((sgd_c6_cross_entropy_sublosses Reduction.mean inpF).2.2.2.2.2
      [[0, 0]] [0] rfl (by decide)).1⟩

/-! ## Claim C7 -/

/-- C7 counterexample: in `inpB` every labelled sub-task is entirely the
ignore sentinel except one active intent label, yet the `'mean'` total loss
is not `intent_loss / 7`: the requested-slot binary cross-entropy (here
`log 2 > 0`) is also added before dividing by 7. -/
theorem sgd_c7_counterexample :
    activeCount inpB.intent_status_labels = 1 ∧
    activeCount inpB.categorical_slot_status.flatten = 0 ∧
    activeCount inpB.categorical_slot_values.flatten = 0 ∧
    activeCount inpB.noncategorical_slot_status.flatten = 0 ∧
    activeCount inpB.noncategorical_slot_value_start.flatten = 0 ∧
    activeCount inpB.noncategorical_slot_value_end.flatten = 0 ∧
    _loss_function Reduction.mean inpB ≠
      odiv (intent_loss Reduction.mean inpB) 7 := by
  refine ⟨by decide, by decide, by decide, by decide, by decide, by decide, ?_⟩
  have hint : intent_loss Reduction.mean inpB = some (Real.log 2) := by
    simp [intent_loss, CrossEntropyLoss, ceActive, ceTotal, nllTerm, inpB, inpA,
      IGNORE_INDEX, lse_pair_zero]
  have hreq : requested_slot_loss Reduction.mean inpB = some (Real.log 2) := by
    simp [requested_slot_loss, BCEWithLogitsLoss, bceTerms, maskedSelect, inpB,
      inpA, bceTerm_zero_zero]
  have hcs : cat_slot_status_loss Reduction.mean inpB = some 0 := by
    simp [cat_slot_status_loss, activeCount, inpB, inpA, IGNORE_INDEX]
  have hcv : cat_slot_value_loss Reduction.mean inpB = some 0 := by
    simp [cat_slot_value_loss, activeCount, inpB, inpA, IGNORE_INDEX]
  have hns : noncat_slot_status_loss Reduction.mean inpB = some 0 := by
    simp [noncat_slot_status_loss, activeCount, inpB, inpA, IGNORE_INDEX]
  have hss : span_start_loss Reduction.mean inpB = some 0 := by
    simp [span_start_loss, activeCount, inpB, inpA, IGNORE_INDEX]
  have hse : span_end_loss Reduction.mean inpB = some 0 := by
    simp [span_end_loss, activeCount, inpB, inpA, IGNORE_INDEX]
  have hm : _loss_function Reduction.mean inpB =
      some ((Real.log 2 + (Real.log 2 + (0 + (0 + (0 + (0 + 0)))))) / 7) := by
    rw [loss_function_mean_eq, total_foldl, hint, hreq, hcs, hcv, hns, hss, hse]
    simp only [oadd_some_some, odiv_some]
  intro hc
  rw [hm, hint] at hc
  simp only [odiv_some, Option.some.injEq] at hc
  have hlog : 0 < Real.log 2 := Real.log_pos one_lt_two
  linarith

/-- C7 (amended): when the categorical-status, categorical-value,
non-categorical-status and span-start label tensors are entirely the ignore
sentinel, the `'mean'` total loss is `(intent_loss + requested_slot_loss) / 7`
(the five guarded sub-losses are exactly zero); it therefore equals
`intent_loss / 7` only when the requested-slot loss vanishes, which a
nonempty mask's binary cross-entropy never does. -/
theorem sgd_c7_intent_plus_reqslot (inp : Inputs)
    (h1 : activeCount inp.categorical_slot_status.flatten = 0)
    (h2 : activeCount inp.categorical_slot_values.flatten = 0)
    (h3 : activeCount inp.noncategorical_slot_status.flatten = 0)
    (h4 : activeCount inp.noncategorical_slot_value_start.flatten = 0) :
    _loss_function Reduction.mean inp =
      odiv (oadd (intent_loss Reduction.mean inp)
        (requested_slot_loss Reduction.mean inp)) 7 := by
  have hcs : cat_slot_status_loss Reduction.mean inp = some 0 := by
    simp [cat_slot_status_loss, h1]
  have hcv : cat_slot_value_loss Reduction.mean inp = some 0 := by
    simp [cat_slot_value_loss, h2]
  have hns : noncat_slot_status_loss Reduction.mean inp = some 0 := by
    simp [noncat_slot_status_loss, h3]
  have hss : span_start_loss Reduction.mean inp = some 0 := by
    simp [span_start_loss, h4]
  have hse : span_end_loss Reduction.mean inp = some 0 := by
    simp [span_end_loss, h4]
  rw [loss_function_mean_eq, total_foldl, hcs, hcv, hns, hss, hse]
  cases hi : intent_loss Reduction.mean inp with
  | none => simp
  | some xi =>
      cases hr : requested_slot_loss Reduction.mean inp with
      | none => simp
      | some xr => simp

/-- Witness for C7 at `inpB`. -/
theorem sgd_c7_intent_plus_reqslot_witness :
    _loss_function Reduction.mean inpB =
      odiv (oadd (intent_loss Reduction.mean inpB)
        (requested_slot_loss Reduction.mean inpB)) 7 :=
  sgd_c7_intent_plus_reqslot inpB (by decide) (by decide) (by decide) (by decide)

/-! ## Claim C9 -/

/-- C9: the degenerate substitution for both span losses is decided solely
by the span-START labels.  When every span-start label is the ignore
sentinel, both span losses are the zero substitute regardless of the
span-end labels; when some span-start label is active, both span
cross-entropies are computed — the span-end one even if every span-end label
is the ignore sentinel, since the check never consults them. -/
theorem sgd_c9_span_gating (r : Reduction) (inp : Inputs) :
    (activeCount inp.noncategorical_slot_value_start.flatten = 0 →
      span_start_loss r inp = some 0 ∧ span_end_loss r inp = some 0) ∧
    (0 < activeCount inp.noncategorical_slot_value_start.flatten →
      span_end_loss r inp = CrossEntropyLoss r
        inp.logit_noncat_slot_end.flatten
        inp.noncategorical_slot_value_end.flatten ∧
      span_start_loss r inp = CrossEntropyLoss r
        inp.logit_noncat_slot_start.flatten
        inp.noncategorical_slot_value_start.flatten) := by
  constructor
  · intro h
    constructor <;> simp [span_start_loss, span_end_loss, h]
  · intro h
    constructor
    · rw [span_end_loss, if_neg (by omega)]
    · rw [span_start_loss, if_neg (by omega)]

/-- Witness for C9: at `inpA` (span-start all-ignore) both span losses are
zero; at `inpC` (span-start active, span-end all-ignore) the span-end
cross-entropy is nevertheless computed. -/
theorem sgd_c9_span_gating_witness :
    (span_start_loss Reduction.mean inpA = some 0 ∧
     span_end_loss Reduction.mean inpA = some 0) ∧
    span_end_loss Reduction.mean inpC =
      CrossEntropyLoss Reduction.mean inpC.logit_noncat_slot_end.flatten
        inpC.noncategorical_slot_value_end.flatten :=
  ⟨(sgd_c9_span_gating Reduction.mean inpA).1 (by decide),
   ((sgd_c9_span_gating Reduction.mean inpC).2 (by decide)).1⟩

/-! ## Claim C10 -/

/-- C10: the intent and requested-slot losses have no degenerate branch:
both are invoked unconditionally (no zero substitute), the degenerate intent
batch and the empty mask selection yield NaN (`none`) under `'mean'` rather
than zero, and every warning the loss computation can emit concerns one of
the four guarded sub-tasks, none the intent or requested-slot losses. -/
theorem sgd_c10_no_degenerate_branch (r : Reduction) (inp : Inputs) :
    intent_loss r inp =
      CrossEntropyLoss r inp.logit_intent_status inp.intent_status_labels ∧
    requested_slot_loss r inp = BCEWithLogitsLoss r
      (maskedSelect inp.logit_req_slot_status.flatten inp.req_slot_mask.flatten)
      (maskedSelect inp.requested_slot_status.flatten inp.req_slot_mask.flatten) ∧
    (activeCount inp.intent_status_labels = 0 →
      intent_loss Reduction.mean inp = none) ∧
    (maskedSelect inp.logit_req_slot_status.flatten inp.req_slot_mask.flatten
        = [] →
      requested_slot_loss Reduction.mean inp = none) ∧
    (∀ w ∈ lossWarnings inp,
      w = "No active categorical slots in the batch" ∨
      w = "No active values for categorical slots in the batch." ∨
      w = "No active non-categorical slots in the batch." ∨
      w = "No active values for non-categorical slots in the batch.") := by
  refine ⟨rfl, rfl, ?_, ?_, ?_⟩
  · intro h
    exact CrossEntropyLoss_mean_degenerate _ _ h
  · intro h
    refine BCEWithLogitsLoss_mean_empty _ _ ?_
    rw [h]
    simp [bceTerms]
  · intro w hw
    have hmem : ∀ (c : Prop), ∀ (hc : Decidable c), ∀ (m : String),
        w ∈ (@ite _ c hc [m] []) → w = m := by
      intro c hc m hm
      split at hm
      · simpa using hm
      · simp at hm
    simp only [lossWarnings, List.mem_append] at hw
    rcases hw with ((h | h) | h) | h
    · exact Or.inl (hmem _ _ _ h)
    · exact Or.inr (Or.inl (hmem _ _ _ h))
    · exact Or.inr (Or.inr (Or.inl (hmem _ _ _ h)))
    · exact Or.inr (Or.inr (Or.inr (hmem _ _ _ h)))

/-- Witness for C10: the all-ignored intent batch `inpA` gives an intent
loss of NaN, and the no-position mask of `inpG` gives a requested-slot loss
of NaN — neither is substituted with zero. -/
theorem sgd_c10_no_degenerate_branch_witness :
    intent_loss Reduction.mean inpA = none ∧
    requested_slot_loss Reduction.mean inpG = none :=
  ⟨(sgd_c10_no_degenerate_branch Reduction.mean inpA).2.2.1 (by decide),
   (sgd_c10_no_degenerate_branch Reduction.mean inpG).2.2.2.1 rfl⟩

end SGDLoss
